import Mathlib

/-!
# Verification of the pdf-compressor service against its specification

The repository ships two variants of the same Express service:

* `index.js`  — an older draft (referred to below as **V1**), listening on a
  fixed port;
* `app.js`    — the deployed entry point (referred to below as **V2**): the
  Dockerfile's `CMD` runs `node app.js`, and only this variant reads the
  `PORT` environment override described by the specification.

This file gives a shallow embedding of the request pipeline of both variants
(the V2 one in full, the V1 handler where a claim cites it) and proves or
refutes the specification claims about them.

JavaScript-level conventions of the embedding:

* JS strings are modelled as Lean `String` (a list of Unicode scalar values).
  The only place where the UTF-16 nature of JS strings could matter is the
  per-character regex replacement inside the sanitizer (an astral character
  counts as two UTF-16 units and would be replaced by two underscores rather
  than one); since the sanitizer immediately collapses underscore runs, the
  final value is identical under both readings.
* `undefined`-producing property reads that are interpolated into a template
  literal are modelled as the string `"undefined"`, exactly as JS stringifies
  them.
* An object-literal property lookup `obj[k]` traverses the prototype chain:
  for keys that are not own properties of the literal, it yields the
  corresponding member of `Object.prototype` (a truthy function/object) when
  `k` names one, and `undefined` otherwise.  The `LookupResult` type below
  records exactly this trichotomy.
* Asynchronous callbacks (`exec`, `res.download`, `fs.unlink`) are linearised
  into the order in which the code issues them; the observable actions of one
  request are collected into a list of `Effect`s.
-/

namespace PdfCompressor

/-- A row of the `compressionSettings` object literal (`app.js` lines 537–541,
identical in `index.js` lines 23–27): a Ghostscript `-dPDFSETTINGS` directive
and an image-resolution value, both stored as strings as in the source. -/
structure CompressionProfile where
  level : String
  imageResolution : String
deriving DecidableEq, Repr

/-- Result of the JavaScript property lookup `compressionSettings[key]`.
`profile p` is an own property of the object literal; `inherited` is a truthy
non-profile value found on `Object.prototype` (e.g. `compressionSettings
["toString"]` evaluates to the inherited `Function` object); `undefinedVal` is
`undefined`. -/
inductive LookupResult where
  | profile (p : CompressionProfile)
  | inherited
  | undefinedVal
deriving DecidableEq, Repr

/-- Member names of `Object.prototype` in Node 18: a plain object literal
inherits all of these, so `obj[k]` is truthy (not `undefined`) for each of
them.  `__proto__` is the accessor returning the prototype object itself. -/
def objectPrototypeKeys : List String :=
  ["constructor", "hasOwnProperty", "isPrototypeOf", "propertyIsEnumerable",
   "toLocaleString", "toString", "valueOf", "__proto__",
   "__defineGetter__", "__defineSetter__", "__lookupGetter__", "__lookupSetter__"]

/-- The lookup `compressionSettings[compressionLevel]` (`app.js` line 550).
Own keys are exactly `little`, `middle`, `high`; every other key falls
through to the prototype chain. -/
def compressionSettingsLookup (key : String) : LookupResult :=
  if key = "little" then .profile ⟨"/screen", "72"⟩
  else if key = "middle" then .profile ⟨"/ebook", "150"⟩
  else if key = "high" then .profile ⟨"/printer", "300"⟩
  else if key ∈ objectPrototypeKeys then .inherited
  else .undefinedVal

/-- Whether the lookup produced an actual profile row (an own property). -/
def LookupResult.isProfile : LookupResult → Bool
  | .profile _ => true
  | _ => false

/-- The JS truthiness test `!settings` (`app.js` line 552): only `undefined`
is falsy among the possible lookup results. -/
def LookupResult.isFalsy : LookupResult → Bool
  | .undefinedVal => true
  | _ => false

/-- Interpolation `${settings.level}`: reading `.level` off an inherited
`Object.prototype` member yields `undefined`, which a template literal
stringifies as `"undefined"`. -/
def LookupResult.levelStr : LookupResult → String
  | .profile p => p.level
  | _ => "undefined"

/-- Interpolation `${settings.imageResolution}`, analogously. -/
def LookupResult.imageResolutionStr : LookupResult → String
  | .profile p => p.imageResolution
  | _ => "undefined"

/-- `req.body.compressionLevel || 'middle'` (`app.js` line 549): the field is
either absent (`undefined`) or a string; among strings only `""` is falsy. -/
def compressionLevelOf : Option String → String
  | none => "middle"
  | some s => if s = "" then "middle" else s

/-! ## JavaScript / Node string primitives used by the pipeline -/

/-- The character class trimmed by `String.prototype.trim()`: JS WhiteSpace
and LineTerminator code points. -/
def isJsWhitespace (c : Char) : Bool :=
  c = ' ' ∨ c = '\t' ∨ c = '\n' ∨ c = '\x0d' ∨ c = '\x0b' ∨ c = '\x0c' ∨
  c = '\u00A0' ∨ c = '\u1680' ∨ ('\u2000' ≤ c ∧ c ≤ '\u200A') ∨
  c = '\u2028' ∨ c = '\u2029' ∨ c = '\u202F' ∨ c = '\u205F' ∨
  c = '\u3000' ∨ c = '\uFEFF'

/-- `s.trim()`: strip `isJsWhitespace` characters from both ends. -/
def jsTrim (s : String) : String :=
  ⟨((s.data.dropWhile isJsWhitespace).reverse.dropWhile isJsWhitespace).reverse⟩

/-- Index (from the front) of the last `'.'` of a character list, if any. -/
def lastDotIdx (cs : List Char) : Option Nat :=
  (cs.reverse.findIdx? (· = '.')).map (fun j => cs.length - 1 - j)

/-- The last path component of `p` under POSIX rules: trailing `'/'`
separators are ignored, then everything after the last remaining `'/'` is
taken.  (A path consisting only of separators has basename `"/"`.) -/
def lastComponent (cs : List Char) : List Char :=
  let noTrail := (cs.reverse.dropWhile (· = '/'))
  if noTrail = [] then (if cs = [] then [] else ['/'])
  else (noTrail.takeWhile (· ≠ '/')).reverse

/-- `path.posix.extname(p)` (Node 18).  Within the last path component, the
extension runs from the last `'.'` to the end — unless that dot is the
component's first character (dotfile) or the component is exactly `".."`,
in which case the extension is empty. -/
def extname (p : String) : String :=
  let comp := lastComponent p.data
  match lastDotIdx comp with
  | none => ""
  | some k => if k = 0 ∨ comp = ['.', '.'] then "" else ⟨comp.drop k⟩

/-- `path.posix.basename(p)` without an extension argument. -/
def basenamePlain (p : String) : String :=
  ⟨lastComponent p.data⟩

/-- `path.posix.basename(p, ext)` (Node 18).  Quirks reproduced from the
Node source: when `ext` equals the whole path the result is `""`; when the
basename equals `ext` (but the whole path does not) the suffix is *not*
stripped; otherwise a matching suffix `ext` is removed. -/
def basenameExt (p ext : String) : String :=
  if ext ≠ "" ∧ ext.length ≤ p.length then
    if ext = p then ""
    else
      let b := basenamePlain p
      if b = ext then b
      else if ext.data.isSuffixOf b.data then ⟨b.data.take (b.data.length - ext.data.length)⟩
      else b
  else basenamePlain p

/-! ## The V2 (`app.js`) filename sanitizer, lines 562–585 -/

/-- The character class `[a-zA-Z0-9_-]` kept by the sanitizing regex. -/
def isWordChar (c : Char) : Bool :=
  c.isAlpha ∨ c.isDigit ∨ c = '_' ∨ c = '-'

/-- `baseName.replace(/[^a-zA-Z0-9_-]/g, '_')`. -/
def replaceNonWord (cs : List Char) : List Char :=
  cs.map (fun c => if isWordChar c then c else '_')

/-- `.replace(/__+/g, '_')`: collapse each run of two or more underscores
into a single one. -/
def collapseUnderscores : List Char → List Char
  | [] => []
  | [c] => [c]
  | c₁ :: c₂ :: rest =>
    if c₁ = '_' ∧ c₂ = '_' then collapseUnderscores (c₂ :: rest)
    else c₁ :: collapseUnderscores (c₂ :: rest)

/-- `.replace(/^_+|_+$/g, '')`: strip the leading and trailing underscore
runs. -/
def stripEdgeUnderscores (cs : List Char) : List Char :=
  ((cs.dropWhile (· = '_')).reverse.dropWhile (· = '_')).reverse

/-- The `baseName` computed by `app.js` lines 562–574 before sanitization:
trim, split off the extension, and apply the two special-case branches and
the `'untitled'` fallback. -/
def rawBaseName (originalname : String) : String :=
  let originalFileName := jsTrim originalname
  let originalFileExtension := extname originalFileName
  let baseName := basenameExt originalFileName originalFileExtension
  let baseName :=
    if baseName = "" ∧ originalFileName.data.head? = some '.' then
      "file_from_extension"
    else if originalFileName.data.getLast? = some '.' ∧ originalFileExtension = "." then
      ⟨originalFileName.data.take (originalFileName.data.length - 1)⟩
    else baseName
  if baseName = "" then "untitled" else baseName

/-- `finalBaseName` (`app.js` lines 581–585): sanitize the base name and fall
back to `'compressed_document'` when nothing survives. -/
def finalBaseName (originalname : String) : String :=
  let sanitizedBaseName : String :=
    ⟨stripEdgeUnderscores (collapseUnderscores (replaceNonWord (rawBaseName originalname).data))⟩
  if sanitizedBaseName = "" then "compressed_document" else sanitizedBaseName

/-! ## The V1 (`index.js`) sanitizer, lines 48–50 -/

/-- `index.js` lines 48–50:
`originalname.replace(/[^a-zA-Z0-9.]/g, "_").replace(/\.pdf$/i, "")`. -/
def originalNameSanitized (originalname : String) : String :=
  let replaced := originalname.data.map
    (fun c => if c.isAlpha ∨ c.isDigit ∨ c = '.' then c else '_')
  let lower4 := (replaced.drop (replaced.length - 4)).map Char.toLower
  if replaced.length ≥ 4 ∧ lower4 = ['.', 'p', 'd', 'f'] then
    ⟨replaced.take (replaced.length - 4)⟩
  else ⟨replaced⟩

/-! ## Staged file names -/

/-- Multer's V2 filename sanitizer (`app.js` line 530):
`file.originalname.replace(/[^a-zA-Z0-9._-]/g, '_')`. -/
def safeOriginalName (originalname : String) : String :=
  ⟨originalname.data.map
    (fun c => if c.isAlpha ∨ c.isDigit ∨ c = '.' ∨ c = '_' ∨ c = '-' then c else '_')⟩

/-- The stored upload name (`app.js` line 531):
`Date.now() + '-' + safeOriginalName`. -/
def multerFilename (now : Nat) (originalname : String) : String :=
  Nat.repr now ++ "-" ++ safeOriginalName originalname

/-- The staged input path: multer joins the destination `'uploads/'`
(`app.js` line 525) with the generated filename. -/
def stagedInputPath (now : Nat) (originalname : String) : String :=
  "uploads/" ++ multerFilename now originalname

/-- `compressed-<timestamp>-<base>.pdf` as a function of the timestamp and an
already-sanitized base name (`app.js` line 589). -/
def outputFileNameFromBase (now : Nat) (base : String) : String :=
  "compressed-" ++ Nat.repr now ++ "-" ++ base ++ ".pdf"

/-- The V2 output file name for a given original upload name. -/
def outputFileName (now : Nat) (originalname : String) : String :=
  outputFileNameFromBase now (finalBaseName originalname)

/-- The V2 output path: `path.join('compressed_pdfs/', outputFileName)`
(`app.js` line 594). -/
def outputPath (now : Nat) (originalname : String) : String :=
  "compressed_pdfs/" ++ outputFileName now originalname

/-- The V1 output file name (`index.js` line 51), built from the V1
sanitizer. -/
def outputFileNameV1 (now : Nat) (originalname : String) : String :=
  "compressed-" ++ Nat.repr now ++ "-" ++ originalNameSanitized originalname ++ ".pdf"

/-! ## The Ghostscript command -/

/-- The run of 21 spaces that each `\`-continued line of the template literal
(`app.js` lines 597–603) contributes after the line continuation is removed. -/
def gsIndent : String := "                     "

/-- The template literal of `app.js` lines 596–603 (byte-identical shape in
`index.js` lines 57–64), as a function of the four interpolated strings. -/
def gsCommand (level imageResolution outPath inPath : String) : String :=
  "gs -sDEVICE=pdfwrite -dCompatibilityLevel=1.4 " ++ gsIndent ++
  "-dPDFSETTINGS=" ++ level ++ " " ++ gsIndent ++
  "-dNOPAUSE -dQUIET -dBATCH " ++ gsIndent ++
  "-dDetectDuplicateImages=true " ++ gsIndent ++
  "-dColorImageResolution=" ++ imageResolution ++ " " ++ gsIndent ++
  "-dGrayImageResolution=" ++ imageResolution ++ " " ++ gsIndent ++
  "-dMonoImageResolution=" ++ imageResolution ++ " " ++ gsIndent ++
  "-sOutputFile=\"" ++ outPath ++ "\" \"" ++ inPath ++ "\""

/-! ## The request handler as an effect trace -/

/-- The slice of `req.file` that the handler reads.  `path` is the staged
location multer chose; `mimetype` is the client-declared content type (the
handler never inspects it — carrying it makes that provable). -/
structure UploadedFile where
  originalname : String
  path : String
  mimetype : String
deriving DecidableEq, Repr

/-- One inbound `POST /compress-pdf` request: the optional staged file, the
optional `compressionLevel` form field, and the `Date.now()` value sampled
when the output name is generated. -/
structure CompressRequest where
  file : Option UploadedFile
  compressionLevel : Option String
  now : Nat
deriving DecidableEq, Repr

/-- The environment a single request runs against: what `exec`'s callback
reports (`error` is `some` of `error.message` on non-zero exit or launch
failure), whether the tool actually created the output file, and what the
`res.download` callback reports. -/
structure ExecEnv where
  error : Option String
  stdout : String
  stderr : String
  outputCreated : Bool
  downloadErr : Option String
  headersSent : Bool
deriving DecidableEq, Repr

/-- Observable actions of one request, in program order. -/
inductive Effect where
  | unlink (path : String)
  | execCmd (cmd : String)
  | respondJson (status : Nat) (message : String)
  | download (path : String) (filename : String)
deriving DecidableEq, Repr

/-- The V2 handler (`app.js` lines 544–633) linearised into its effect
trace.  Callback bodies appear in issue order: `exec`'s callback first
unlinks the input; on error it unlinks the output and responds 500 with
`stderr || error.message` appended to the fixed prefix; otherwise it calls
`res.download`, whose callback only logs a failure and unconditionally
unlinks the output. -/
def handleCompress (req : CompressRequest) (env : ExecEnv) : List Effect :=
  match req.file with
  | none => [.respondJson 400 "No PDF file uploaded."]
  | some file =>
    let compressionLevel := compressionLevelOf req.compressionLevel
    let settings := compressionSettingsLookup compressionLevel
    if settings.isFalsy then
      [.unlink file.path,
       .respondJson 400 "Invalid compression level. Choose from: little, middle, high."]
    else
      let inputPath := file.path
      let outFileName := outputFileName req.now file.originalname
      let outPath := "compressed_pdfs/" ++ outFileName
      let cmd := gsCommand settings.levelStr settings.imageResolutionStr outPath inputPath
      .execCmd cmd ::
      .unlink inputPath ::
      (match env.error with
       | some msg =>
         [.unlink outPath,
          .respondJson 500 ("Error compressing PDF. Ghostscript stderr: " ++
            (if env.stderr = "" then msg else env.stderr))]
       | none =>
         [.download outPath outFileName, .unlink outPath])

/-- The V1 handler (`index.js` lines 29–96).  Differences from V2: the
output name uses the V1 sanitizer; the error branch does *not* unlink the
output file and uses the message prefix `"Error compressing PDF: "`; the
download callback responds 500 when streaming failed before headers were
sent. -/
def handleCompressV1 (req : CompressRequest) (env : ExecEnv) : List Effect :=
  match req.file with
  | none => [.respondJson 400 "No PDF file uploaded."]
  | some file =>
    let compressionLevel := compressionLevelOf req.compressionLevel
    let settings := compressionSettingsLookup compressionLevel
    if settings.isFalsy then
      [.unlink file.path,
       .respondJson 400 "Invalid compression level. Choose from: little, middle, high."]
    else
      let inputPath := file.path
      let outFileName := outputFileNameV1 req.now file.originalname
      let outPath := "compressed_pdfs/" ++ outFileName
      let cmd := gsCommand settings.levelStr settings.imageResolutionStr outPath inputPath
      .execCmd cmd ::
      .unlink inputPath ::
      (match env.error with
       | some msg =>
         [.respondJson 500 ("Error compressing PDF: " ++
            (if env.stderr = "" then msg else env.stderr))]
       | none =>
         .download outPath outFileName ::
         ((match env.downloadErr with
           | some _ =>
             if env.headersSent then []
             else [.respondJson 500 "Error sending the compressed file."]
           | none => []) ++ [.unlink outPath]))

/-! ## Per-request filesystem bookkeeping -/

/-- One step of the per-request file set: an `unlink` removes the path, the
`exec` invocation adds whatever files the tool created (`execCreates`), the
rest leave the set unchanged. -/
def stepFiles (execCreates : List String) (fs : List String) : Effect → List String
  | .unlink p => fs.filter (· ≠ p)
  | .execCmd _ => fs ++ execCreates
  | _ => fs

/-- The per-request files still on disk after the trace runs: `init` holds
what multipart parsing staged before the handler ran. -/
def finalFiles (init execCreates : List String) (trace : List Effect) : List String :=
  trace.foldl (stepFiles execCreates) init

/-- What the subprocess left in the outbound staging directory. -/
def execCreatesOf (env : ExecEnv) (outPath : String) : List String :=
  if env.outputCreated then [outPath] else []

/-- Recognizer for the `exec` effect, for counting invocations. -/
def Effect.isExec : Effect → Bool
  | .execCmd _ => true
  | _ => false

/-! ## Decimal rendering of `Date.now()` values

`${Date.now()}` stringifies a natural number in decimal; the embedding uses
`Nat.repr`.  The lemmas below establish that the rendering is a nonempty
string of decimal digits and is injective. -/

/-- Fuel-free decimal digit list, least significant digit last. -/
def decimalDigits (n : Nat) : List Char :=
  if _ : n < 10 then [Nat.digitChar n]
  else decimalDigits (n / 10) ++ [Nat.digitChar (n % 10)]
decreasing_by exact Nat.div_lt_self (by omega) (by omega)

/-! ## Shell field splitting

The handler passes `gsCommand` to `child_process.exec`, which hands it to
`/bin/sh -c`.  To make precise that the quoted interpolated paths cannot
alter the structure of the command, we model the relevant fragment of POSIX
shell word splitting: fields are separated by runs of (unquoted) spaces, and
double quotes group their contents into the enclosing field.  This fragment
is exact for any command string — like every `gsCommand` instance proved
safe below — containing no shell-special character other than `"` and the
space separators. -/

/-- State-machine splitter: `inQ` is true inside double quotes, `started`
records that the current field has begun (so that `""` yields an empty
field), `acc` is the current field. -/
def shellFieldsGo : List Char → Bool → Bool → List Char → List (List Char)
  | [], _, started, acc => if started then [acc] else []
  | c :: rest, true, _, acc =>
      if c = '"' then shellFieldsGo rest false true acc
      else shellFieldsGo rest true true (acc ++ [c])
  | c :: rest, false, started, acc =>
      if c = '"' then shellFieldsGo rest true true acc
      else if c = ' ' then
        if started then acc :: shellFieldsGo rest false false []
        else shellFieldsGo rest false false []
      else shellFieldsGo rest false true (acc ++ [c])

/-- The argv-like field list the shell derives from a command string. -/
def shellFields (s : String) : List (List Char) :=
  shellFieldsGo s.data false false []
/-! ## Shell-safety of characters -/

/-- The characters that can occur in the interpolated input/output paths:
ASCII letters, digits, `.`, `_`, `-`, `/`. -/
def isShellSafeChar (c : Char) : Bool :=
  c.isAlpha ∨ c.isDigit ∨ c = '.' ∨ c = '_' ∨ c = '-' ∨ c = '/'

/-- Shell metacharacters and whitespace: any of these inside an argument
could alter the parse of the command handed to `sh -c`. -/
def shellMetaChars : List Char :=
  [' ', '\t', '\n', '|', '&', ';', '<', '>', '(', ')', '$', '`', '\\', '"',
   '\'', '*', '?', '[', ']', '#', '~', '!', '\x7b', '\x7d']
/-! ## A token view of the Ghostscript command

To prove how the shell splits `gsCommand`, we describe the command as a list
of tokens separated by space runs, show that `shellFieldsGo` recovers
exactly the token fields from any such rendering, and check (one string
equation) that `gsCommand` is such a rendering. -/

/-- A shell token: a bare word, a word with a double-quoted suffix (as in
`-sOutputFile="…"`), or a fully double-quoted word. -/
inductive ShTok where
  | plain (s : String)
  | quotedSuffix (pre q : String)
  | quoted (q : String)

/-- How a token appears in the command string. -/
def renderTok : ShTok → String
  | .plain s => s
  | .quotedSuffix pre q => pre ++ "\"" ++ q ++ "\""
  | .quoted q => "\"" ++ q ++ "\""

/-- The field the shell extracts from a token (quotes removed). -/
def tokField : ShTok → List Char
  | .plain s => s.data
  | .quotedSuffix pre q => pre.data ++ q.data
  | .quoted q => q.data

/-- Well-formedness: bare parts are nonempty and contain neither `"` nor a
space; quoted parts contain no `"`. -/
def wfTok : ShTok → Prop
  | .plain s => s.data ≠ [] ∧ ∀ c ∈ s.data, c ≠ '"' ∧ c ≠ ' '
  | .quotedSuffix pre q =>
      pre.data ≠ [] ∧ (∀ c ∈ pre.data, c ≠ '"' ∧ c ≠ ' ') ∧ ∀ c ∈ q.data, c ≠ '"'
  | .quoted q => ∀ c ∈ q.data, c ≠ '"'

/-- A run of `k` spaces. -/
def spacesStr (k : Nat) : String := ⟨List.replicate k ' '⟩

/-- Render tokens, each followed by its trailing space run. -/
def renderToks : List (ShTok × Nat) → String
  | [] => ""
  | (t, k) :: rest => renderTok t ++ spacesStr k ++ renderToks rest

/-- Between two consecutive tokens there is at least one space. -/
def gapsOK : List (ShTok × Nat) → Prop
  | [] => True
  | [_] => True
  | (_, k) :: rest => 1 ≤ k ∧ gapsOK rest
/-- The Ghostscript command as a token list: between the `\`-continued
groups the separator is one space plus the 21-space indent. -/
def gsToks (l r o i : String) : List (ShTok × Nat) :=
  [(.plain "gs", 1), (.plain "-sDEVICE=pdfwrite", 1),
   (.plain "-dCompatibilityLevel=1.4", 22),
   (.plain ("-dPDFSETTINGS=" ++ l), 22),
   (.plain "-dNOPAUSE", 1), (.plain "-dQUIET", 1), (.plain "-dBATCH", 22),
   (.plain "-dDetectDuplicateImages=true", 22),
   (.plain ("-dColorImageResolution=" ++ r), 22),
   (.plain ("-dGrayImageResolution=" ++ r), 22),
   (.plain ("-dMonoImageResolution=" ++ r), 22),
   (.quotedSuffix "-sOutputFile=" o, 1),
   (.quoted i, 0)]
/-! ## Concrete witness fixtures -/

/-- A sample staged upload. -/
def sampleFile : UploadedFile := ⟨"a.pdf", "uploads/1-a.pdf", "application/pdf"⟩

/-- A sample valid request carrying `sampleFile` at level `little`. -/
def sampleRequest : CompressRequest := ⟨some sampleFile, some "little", 2⟩

/-- The same request with a present-but-empty level field. -/
def sampleRequestEmptyLevel : CompressRequest := ⟨some sampleFile, some "", 2⟩

/-- A non-PDF upload with a bogus content type. -/
def sampleOddFile : UploadedFile := ⟨"evil.exe", "uploads/9-evil.exe", "text/html"⟩

/-- A request carrying the non-PDF upload and no level field. -/
def sampleOddRequest : CompressRequest := ⟨some sampleOddFile, none, 4⟩

/-- An environment where the tool succeeded, wrote its output and the client
disconnected during streaming. -/
def sampleEnvOk : ExecEnv := ⟨none, "", "", true, some "client disconnected", true⟩

/-- An environment where the tool failed with diagnostic output after
writing a partial file. -/
def sampleEnvErr : ExecEnv := ⟨some "exit 1", "", "gs stderr", true, none, false⟩

theorem decimalDigits_lt {n : Nat} (h : n < 10) :
    decimalDigits n = [Nat.digitChar n] := by
  conv_lhs => rw [decimalDigits]
  simp [h]

theorem decimalDigits_ge {n : Nat} (h : ¬ n < 10) :
    decimalDigits n = decimalDigits (n / 10) ++ [Nat.digitChar (n % 10)] := by
  conv_lhs => rw [decimalDigits]
  simp [h]

theorem toDigitsCore_eq_decimalDigits (fuel n : Nat) (ds : List Char) (h : n < fuel) :
    Nat.toDigitsCore 10 fuel n ds = decimalDigits n ++ ds := by
  induction fuel generalizing n ds with
  | zero => omega
  | succ fuel ih =>
    rw [Nat.toDigitsCore]
    by_cases h0 : n / 10 = 0
    · have hn : n < 10 := by omega
      rw [decimalDigits_lt hn]
      simp [h0, Nat.mod_eq_of_lt hn]
    · have hn : ¬ n < 10 := by omega
      simp only [h0, if_neg]
      rw [ih (n / 10) _ (by omega), decimalDigits_ge hn]
      simp [List.append_assoc]

theorem natRepr_data (n : Nat) : (Nat.repr n).data = decimalDigits n := by
  show (Nat.toDigits 10 n).asString.data = decimalDigits n
  rw [Nat.toDigits, toDigitsCore_eq_decimalDigits _ _ _ (Nat.lt_succ_self n)]
  simp [List.asString]

theorem digitChar_isDigit {n : Nat} (h : n < 10) : (Nat.digitChar n).isDigit := by
  interval_cases n <;> decide

theorem digitChar_inj {a b : Nat} (ha : a < 10) (hb : b < 10)
    (h : Nat.digitChar a = Nat.digitChar b) : a = b := by
  interval_cases a <;> interval_cases b <;> first | rfl | (exact absurd h (by decide))

theorem decimalDigits_ne_nil (n : Nat) : decimalDigits n ≠ [] := by
  by_cases h : n < 10
  · rw [decimalDigits_lt h]; simp
  · rw [decimalDigits_ge h]; simp

theorem decimalDigits_all_digit (n : Nat) : ∀ c ∈ decimalDigits n, c.isDigit := by
  induction n using Nat.strong_induction_on with
  | _ n ih =>
    by_cases h : n < 10
    · rw [decimalDigits_lt h]
      intro c hc; simp at hc; subst hc; exact digitChar_isDigit h
    · rw [decimalDigits_ge h]
      intro c hc
      rcases List.mem_append.1 hc with hc | hc
      · exact ih (n / 10) (Nat.div_lt_self (by omega) (by omega)) c hc
      · simp at hc; subst hc
        exact digitChar_isDigit (Nat.mod_lt _ (by omega))

theorem decimalDigits_inj {a b : Nat} (h : decimalDigits a = decimalDigits b) : a = b := by
  induction a using Nat.strong_induction_on generalizing b with
  | _ a ih =>
    by_cases ha : a < 10 <;> by_cases hb : b < 10
    · rw [decimalDigits_lt ha, decimalDigits_lt hb] at h
      exact digitChar_inj ha hb (by simpa using h)
    · exfalso
      rw [decimalDigits_lt ha, decimalDigits_ge hb] at h
      have hlen := congrArg List.length h
      simp [List.length_append] at hlen
      exact decimalDigits_ne_nil (b / 10) hlen
    · exfalso
      rw [decimalDigits_ge ha, decimalDigits_lt hb] at h
      have hlen := congrArg List.length h
      simp [List.length_append] at hlen
      exact decimalDigits_ne_nil (a / 10) hlen
    · rw [decimalDigits_ge ha, decimalDigits_ge hb] at h
      obtain ⟨hdiv, hmod⟩ := List.append_inj' h (by simp)
      have h1 : a % 10 = b % 10 :=
        digitChar_inj (Nat.mod_lt _ (by omega)) (Nat.mod_lt _ (by omega))
          (by simpa using hmod)
      have h2 : a / 10 = b / 10 :=
        ih (a / 10) (Nat.div_lt_self (by omega) (by omega)) hdiv
      omega

theorem natRepr_inj {a b : Nat} (h : Nat.repr a = Nat.repr b) : a = b :=
  decimalDigits_inj (by rw [← natRepr_data, ← natRepr_data, h])

theorem natRepr_all_digit (n : Nat) : ∀ c ∈ (Nat.repr n).data, c.isDigit := by
  rw [natRepr_data]; exact decimalDigits_all_digit n

/-! ## Properties of the V2 sanitizer stages -/

theorem replaceNonWord_all (cs : List Char) : ∀ c ∈ replaceNonWord cs, isWordChar c := by
  intro c hc
  simp only [replaceNonWord, List.mem_map] at hc
  obtain ⟨a, -, rfl⟩ := hc
  by_cases h : isWordChar a
  · rw [if_pos h]; exact h
  · rw [if_neg h]; decide

theorem collapseUnderscores_mem :
    ∀ (cs : List Char), ∀ c ∈ collapseUnderscores cs, c ∈ cs := by
  intro cs
  induction cs with
  | nil => simp [collapseUnderscores]
  | cons c₁ rest ih =>
    cases rest with
    | nil => simp [collapseUnderscores]
    | cons c₂ rest₂ =>
      rw [collapseUnderscores]
      split_ifs with h
      · intro c hc
        exact List.mem_cons_of_mem _ (ih c hc)
      · intro c hc
        rcases List.mem_cons.1 hc with rfl | hc
        · exact List.mem_cons_self _ _
        · exact List.mem_cons_of_mem _ (ih c hc)

theorem stripEdgeUnderscores_mem (cs : List Char) :
    ∀ c ∈ stripEdgeUnderscores cs, c ∈ cs := by
  intro c hc
  simp only [stripEdgeUnderscores, List.mem_reverse] at hc
  have h1 := (List.dropWhile_sublist (l := (cs.dropWhile (· = '_')).reverse)
    (p := (· = '_'))).mem hc
  rw [List.mem_reverse] at h1
  exact (List.dropWhile_sublist (l := cs) (p := (· = '_'))).mem h1

/-- Core soundness of the V2 sanitizer: whatever the raw base name is, the
sanitized result consists of `[A-Za-z0-9_-]` characters, and the fallback
makes it nonempty. -/
theorem finalBaseName_spec (originalname : String) :
    finalBaseName originalname ≠ "" ∧
    ∀ c ∈ (finalBaseName originalname).data, isWordChar c := by
  have key : ∀ (t : List Char), (∀ c ∈ t, isWordChar c) →
      (if (⟨t⟩ : String) = "" then "compressed_document" else (⟨t⟩ : String)) ≠ "" ∧
      ∀ c ∈ (if (⟨t⟩ : String) = "" then "compressed_document"
             else (⟨t⟩ : String)).data, isWordChar c := by
    intro t ht
    split_ifs with h
    · exact ⟨by decide, by decide⟩
    · exact ⟨h, ht⟩
  have hw : ∀ c ∈ stripEdgeUnderscores
      (collapseUnderscores (replaceNonWord (rawBaseName originalname).data)),
      isWordChar c := fun c hc =>
    replaceNonWord_all _ _ (collapseUnderscores_mem _ _ (stripEdgeUnderscores_mem _ _ hc))
  simpa only [finalBaseName] using key _ hw


theorem shellFieldsGo_run (xs : List Char) (h : ∀ c ∈ xs, c ≠ '"' ∧ c ≠ ' ') :
    ∀ (rest : List Char) (acc : List Char),
      shellFieldsGo (xs ++ rest) false true acc =
      shellFieldsGo rest false true (acc ++ xs) := by
  induction xs with
  | nil => intro rest acc; simp
  | cons x xs ih =>
    intro rest acc
    obtain ⟨hq, hs⟩ := h x (List.mem_cons_self _ _)
    rw [List.cons_append, shellFieldsGo]
    rw [if_neg hq, if_neg hs]
    rw [ih (fun c hc => h c (List.mem_cons_of_mem _ hc)) rest (acc ++ [x])]
    simp

theorem shellFieldsGo_quoted_run (xs : List Char) (h : ∀ c ∈ xs, c ≠ '"') :
    ∀ (rest : List Char) (acc : List Char),
      shellFieldsGo (xs ++ rest) true true acc =
      shellFieldsGo rest true true (acc ++ xs) := by
  induction xs with
  | nil => intro rest acc; simp
  | cons x xs ih =>
    intro rest acc
    have hq := h x (List.mem_cons_self _ _)
    rw [List.cons_append, shellFieldsGo]
    rw [if_neg hq]
    rw [ih (fun c hc => h c (List.mem_cons_of_mem _ hc)) rest (acc ++ [x])]
    simp


theorem shellSafe_not_meta {c : Char} (h : isShellSafeChar c) :
    c ∉ shellMetaChars := by
  intro hmem
  fin_cases hmem <;> exact absurd h (by decide)

theorem shellSafe_not_quote_space {c : Char} (h : isShellSafeChar c) :
    c ≠ '"' ∧ c ≠ ' ' := by
  constructor <;> rintro rfl <;> exact absurd h (by decide)

theorem isWordChar_shellSafe {c : Char} (h : isWordChar c) : isShellSafeChar c := by
  simp only [isWordChar, decide_eq_true_eq] at h
  simp only [isShellSafeChar, decide_eq_true_eq]
  tauto

theorem isDigit_shellSafe {c : Char} (h : c.isDigit) : isShellSafeChar c := by
  simp only [isShellSafeChar, Char.isDigit, decide_eq_true_eq]
  tauto

theorem string_all_append {p : Char → Bool} {s t : String}
    (hs : ∀ c ∈ s.data, p c) (ht : ∀ c ∈ t.data, p c) :
    ∀ c ∈ (s ++ t).data, p c := by
  rw [String.data_append]
  intro c hc
  rcases List.mem_append.1 hc with hc | hc
  · exact hs c hc
  · exact ht c hc

theorem safeOriginalName_safe (originalname : String) :
    ∀ c ∈ (safeOriginalName originalname).data, isShellSafeChar c := by
  intro c hc
  simp only [safeOriginalName, List.mem_map] at hc
  obtain ⟨a, -, rfl⟩ := hc
  by_cases h : a.isAlpha = true ∨ a.isDigit = true ∨ a = '.' ∨ a = '_' ∨ a = '-'
  · rw [if_pos h]
    simp only [isShellSafeChar, decide_eq_true_eq]
    tauto
  · rw [if_neg h]; decide

theorem natRepr_safe (n : Nat) : ∀ c ∈ (Nat.repr n).data, isShellSafeChar c :=
  fun c hc => isDigit_shellSafe (natRepr_all_digit n c hc)

/-- Every character of a V2 staged input path is shell-safe. -/
theorem stagedInputPath_safe (now : Nat) (originalname : String) :
    ∀ c ∈ (stagedInputPath now originalname).data, isShellSafeChar c := by
  unfold stagedInputPath multerFilename
  exact string_all_append (by decide)
    (string_all_append (string_all_append (natRepr_safe now) (by decide))
      (safeOriginalName_safe originalname))

/-- Every character of a V2 output path is shell-safe. -/
theorem outputPath_safe (now : Nat) (originalname : String) :
    ∀ c ∈ (outputPath now originalname).data, isShellSafeChar c := by
  unfold outputPath outputFileName outputFileNameFromBase
  refine string_all_append (by decide) ?_
  refine string_all_append ?_ (by decide)
  refine string_all_append ?_ ?_
  · exact string_all_append (string_all_append (by decide) (natRepr_safe now)) (by decide)
  · exact fun c hc => isWordChar_shellSafe ((finalBaseName_spec originalname).2 c hc)


theorem shellFieldsGo_tok {t : ShTok} (h : wfTok t) (rest : List Char) :
    shellFieldsGo ((renderTok t).data ++ rest) false false [] =
    shellFieldsGo rest false true (tokField t) := by
  cases t with
  | plain s =>
    obtain ⟨hne, hsafe⟩ := h
    cases hd : s.data with
    | nil => exact absurd hd hne
    | cons c cs =>
      have hc := hsafe c (by rw [hd]; exact List.mem_cons_self _ _)
      have hcs : ∀ x ∈ cs, x ≠ '"' ∧ x ≠ ' ' :=
        fun x hx => hsafe x (by rw [hd]; exact List.mem_cons_of_mem _ hx)
      rw [renderTok, tokField, hd, List.cons_append]
      simp [shellFieldsGo, hc.1, hc.2, shellFieldsGo_run cs hcs]
  | quotedSuffix pre q =>
    obtain ⟨hne, hpre, hq⟩ := h
    cases hd : pre.data with
    | nil => exact absurd hd hne
    | cons c cs =>
      have hc := hpre c (by rw [hd]; exact List.mem_cons_self _ _)
      have hcs : ∀ x ∈ cs, x ≠ '"' ∧ x ≠ ' ' :=
        fun x hx => hpre x (by rw [hd]; exact List.mem_cons_of_mem _ hx)
      rw [renderTok, tokField]
      simp only [String.data_append, hd]
      rw [show ((c :: cs ++ ("\"" : String).data ++ q.data ++ ("\"" : String).data) ++ rest :
          List Char) = c :: (cs ++ ('"' :: (q.data ++ ('"' :: rest)))) from by simp]
      simp [shellFieldsGo, hc.1, hc.2, shellFieldsGo_run cs hcs,
        shellFieldsGo_quoted_run q.data hq]
  | quoted q =>
    rw [renderTok, tokField]
    simp only [String.data_append]
    rw [show ((("\"" : String).data ++ q.data ++ ("\"" : String).data) ++ rest :
        List Char) = '"' :: (q.data ++ ('"' :: rest)) from by simp]
    simp [shellFieldsGo, shellFieldsGo_quoted_run q.data h]

theorem shellFieldsGo_spaces_skip (k : Nat) (rest : List Char) :
    shellFieldsGo ((spacesStr k).data ++ rest) false false [] =
    shellFieldsGo rest false false [] := by
  induction k with
  | zero => rfl
  | succ k ih =>
    show shellFieldsGo ((List.replicate (k + 1) ' ') ++ rest) false false [] = _
    rw [List.replicate_succ, List.cons_append]
    simp only [shellFieldsGo]
    simpa using ih

theorem shellFieldsGo_spaces_end (k : Nat) (acc : List Char) :
    shellFieldsGo ((spacesStr k).data) false true acc = [acc] := by
  cases k with
  | zero => rfl
  | succ k =>
    show shellFieldsGo (List.replicate (k + 1) ' ') false true acc = _
    rw [List.replicate_succ]
    simp only [shellFieldsGo]
    have h0 : shellFieldsGo (List.replicate k ' ') false false [] = [] := by
      have := shellFieldsGo_spaces_skip k []
      simp only [List.append_nil] at this
      simpa [spacesStr, shellFieldsGo] using this
    simp [h0]

theorem shellFieldsGo_renderToks :
    ∀ (ts : List (ShTok × Nat)), (∀ p ∈ ts, wfTok p.1) → gapsOK ts →
    shellFieldsGo (renderToks ts).data false false [] =
    ts.map (fun p => tokField p.1) := by
  intro ts
  induction ts with
  | nil => intro _ _; rfl
  | cons p rest ih =>
    intro hwf hgaps
    obtain ⟨t, k⟩ := p
    rw [renderToks]
    simp only [String.data_append]
    rw [List.append_assoc, shellFieldsGo_tok (hwf _ (List.mem_cons_self _ _))]
    cases rest with
    | nil =>
      rw [renderToks]
      show shellFieldsGo ((spacesStr k).data ++ [] ) false true (tokField t) = _
      rw [List.append_nil, shellFieldsGo_spaces_end]
      rfl
    | cons p2 rest2 =>
      have hk : 1 ≤ k := hgaps.1
      obtain ⟨k', rfl⟩ : ∃ k', k = k' + 1 := ⟨k - 1, by omega⟩
      show shellFieldsGo ((List.replicate (k' + 1) ' ') ++ (renderToks (p2 :: rest2)).data)
        false true (tokField t) = _
      rw [List.replicate_succ, List.cons_append, shellFieldsGo]
      simp only [if_pos rfl, reduceIte]
      rw [show (List.replicate k' ' ' ++ (renderToks (p2 :: rest2)).data : List Char) =
          (spacesStr k').data ++ (renderToks (p2 :: rest2)).data from rfl,
        shellFieldsGo_spaces_skip,
        ih (fun q hq => hwf q (List.mem_cons_of_mem _ hq)) hgaps.2]
      rfl


set_option maxRecDepth 4000 in
theorem gsCommand_eq_render (l r o i : String) :
    gsCommand l r o i = renderToks (gsToks l r o i) := by
  apply String.ext
  simp [gsCommand, gsIndent, gsToks, renderToks, renderTok, spacesStr,
    String.data_append]

theorem wfTok_plain_append (a b : String)
    (ha : a.data ≠ []) (ha2 : ∀ c ∈ a.data, c ≠ '"' ∧ c ≠ ' ')
    (hb : ∀ c ∈ b.data, c ≠ '"' ∧ c ≠ ' ') : wfTok (.plain (a ++ b)) := by
  constructor
  · rw [String.data_append]
    intro h
    exact ha (List.append_eq_nil.mp h).1
  · rw [String.data_append]
    intro c hc
    rcases List.mem_append.1 hc with h | h
    exacts [ha2 c h, hb c h]

/-- How `sh -c` splits every Ghostscript command built by the handler, for
any interpolated values free of `"` and spaces: a fixed 13-entry argument
vector in which the two paths survive as single intact arguments. -/
theorem gsCommand_fields (l r o i : String)
    (hl : ∀ c ∈ l.data, c ≠ '"' ∧ c ≠ ' ')
    (hr : ∀ c ∈ r.data, c ≠ '"' ∧ c ≠ ' ')
    (ho : ∀ c ∈ o.data, c ≠ '"' ∧ c ≠ ' ')
    (hi : ∀ c ∈ i.data, c ≠ '"' ∧ c ≠ ' ') :
    shellFields (gsCommand l r o i) =
      ["gs".data, "-sDEVICE=pdfwrite".data, "-dCompatibilityLevel=1.4".data,
       "-dPDFSETTINGS=".data ++ l.data,
       "-dNOPAUSE".data, "-dQUIET".data, "-dBATCH".data,
       "-dDetectDuplicateImages=true".data,
       "-dColorImageResolution=".data ++ r.data,
       "-dGrayImageResolution=".data ++ r.data,
       "-dMonoImageResolution=".data ++ r.data,
       "-sOutputFile=".data ++ o.data,
       i.data] := by
  rw [gsCommand_eq_render, shellFields, shellFieldsGo_renderToks _ ?wf ?gaps]
  case wf =>
    intro p hp
    fin_cases hp
    · exact ⟨by decide, by decide⟩
    · exact ⟨by decide, by decide⟩
    · exact ⟨by decide, by decide⟩
    · exact wfTok_plain_append _ _ (by decide)
        (by intro c hc; fin_cases hc <;> decide) hl
    · exact ⟨by decide, by decide⟩
    · exact ⟨by decide, by decide⟩
    · exact ⟨by decide, by decide⟩
    · exact ⟨by decide, by decide⟩
    · exact wfTok_plain_append _ _ (by decide)
        (by intro c hc; fin_cases hc <;> decide) hr
    · exact wfTok_plain_append _ _ (by decide)
        (by intro c hc; fin_cases hc <;> decide) hr
    · exact wfTok_plain_append _ _ (by decide)
        (by intro c hc; fin_cases hc <;> decide) hr
    · exact ⟨by decide, by intro c hc; fin_cases hc <;> decide,
        fun c hc => (ho c hc).1⟩
    · exact fun c hc => (hi c hc).1
  case gaps => simp [gsToks, gapsOK]
  simp [gsToks, tokField, String.data_append]

/-! ## Injectivity of the output naming scheme -/

theorem takeWhile_digits_append (d : List Char) (hd : ∀ c ∈ d, c.isDigit)
    (t : List Char) : List.takeWhile Char.isDigit (d ++ '-' :: t) = d := by
  induction d with
  | nil => simp [List.takeWhile]
  | cons c cs ih =>
    rw [List.cons_append, List.takeWhile_cons]
    rw [hd c (List.mem_cons_self _ _)]
    simp only [if_true]
    rw [ih (fun x hx => hd x (List.mem_cons_of_mem _ hx))]

theorem outputFileNameFromBase_inj (n₁ n₂ : Nat) (b₁ b₂ : String) :
    outputFileNameFromBase n₁ b₁ = outputFileNameFromBase n₂ b₂ ↔
    (n₁ = n₂ ∧ b₁ = b₂) := by
  constructor
  · intro h
    have hdata := congrArg String.data h
    simp only [outputFileNameFromBase, String.data_append, List.append_assoc] at hdata
    simp only [show ("-" : String).data = ['-'] from rfl, List.singleton_append] at hdata
    simp at hdata
    have hrepr : (Nat.repr n₁).data = (Nat.repr n₂).data := by
      have h₁ := congrArg (List.takeWhile Char.isDigit) hdata
      rwa [takeWhile_digits_append _ (natRepr_all_digit n₁),
        takeWhile_digits_append _ (natRepr_all_digit n₂)] at h₁
    have hn : n₁ = n₂ := natRepr_inj (by apply String.ext; exact hrepr)
    refine ⟨hn, ?_⟩
    rw [hrepr] at hdata
    have hb := List.append_cancel_left hdata
    simp only [List.cons.injEq, true_and] at hb
    exact String.ext (List.append_cancel_right hb)
  · rintro ⟨rfl, rfl⟩
    rfl

theorem outputPath_inj (n₁ n₂ : Nat) (name₁ name₂ : String) :
    outputPath n₁ name₁ = outputPath n₂ name₂ ↔
    (n₁ = n₂ ∧ finalBaseName name₁ = finalBaseName name₂) := by
  rw [outputPath, outputPath, outputFileName, outputFileName]
  constructor
  · intro h
    have hdata := congrArg String.data h
    simp only [String.data_append] at hdata
    have := List.append_cancel_left hdata
    exact (outputFileNameFromBase_inj _ _ _ _).1 (String.ext this)
  · rintro ⟨rfl, hb⟩
    rw [hb]

/-! # The claims -/

/-- **C1 (counterexample).**  The claim's level names do not exist in the
table: `compressionSettings["low"]` and `compressionSettings["medium"]` are
`undefined` (NotFound) rather than profiles, and the default substituted for
a missing level field is the string `"middle"`, not `"medium"`. -/
theorem claim_C1_counterexample :
    compressionSettingsLookup "low" = .undefinedVal ∧
    compressionSettingsLookup "medium" = .undefinedVal ∧
    compressionLevelOf none = "middle" ∧ "middle" ≠ "medium" := by
  decide

/-- **C1 (amended).**  The profile table's own keys are exactly `little`,
`middle`, `high`; those three lookups return pairwise distinct profiles
whose directives are `/screen`, `/ebook`, `/printer` with numerically
strictly increasing image resolutions 72 < 150 < 300; `lookup("bogus")` is
NotFound; a lookup yields a profile only for the three keys; and the default
level substituted when the field is absent is `"middle"`. -/
theorem claim_C1 :
    compressionSettingsLookup "little" = .profile ⟨"/screen", "72"⟩ ∧
    compressionSettingsLookup "middle" = .profile ⟨"/ebook", "150"⟩ ∧
    compressionSettingsLookup "high" = .profile ⟨"/printer", "300"⟩ ∧
    (⟨"/screen", "72"⟩ : CompressionProfile) ≠ ⟨"/ebook", "150"⟩ ∧
    (⟨"/ebook", "150"⟩ : CompressionProfile) ≠ ⟨"/printer", "300"⟩ ∧
    (⟨"/screen", "72"⟩ : CompressionProfile) ≠ ⟨"/printer", "300"⟩ ∧
    Nat.repr 72 = "72" ∧ Nat.repr 150 = "150" ∧
    Nat.repr 300 = "300" ∧ 72 < 150 ∧ 150 < 300 ∧
    compressionSettingsLookup "bogus" = .undefinedVal ∧
    (∀ key : String, (compressionSettingsLookup key).isProfile = true ↔
      key = "little" ∨ key = "middle" ∨ key = "high") ∧
    compressionLevelOf none = "middle" := by
  refine ⟨by decide, by decide, by decide, by decide, by decide, by decide,
    by decide, by decide, by decide, by decide, by decide, by decide, ?_, by decide⟩
  intro key
  unfold compressionSettingsLookup
  split_ifs with h₁ h₂ h₃ h₄ <;>
    simp_all [LookupResult.isProfile]

/-- **C2 (counterexample).**  The V1 sanitizer (`index.js` lines 48–50,
`originalNameSanitized`) violates the claim: on `".pdf"` it returns the
empty string, and on `"notes.v1.pdf"` it returns a string containing `'.'`,
which is outside `[A-Za-z0-9_-]`. -/
theorem claim_C2_counterexample :
    originalNameSanitized ".pdf" = "" ∧
    originalNameSanitized "notes.v1.pdf" = "notes.v1" ∧
    '.' ∈ (originalNameSanitized "notes.v1.pdf").data ∧
    isWordChar '.' = false := by
  decide

/-- **C2 (amended).**  The deployed V2 sanitizer (`app.js` `finalBaseName`)
satisfies the claim for *every* input string — including `""`, `"."`,
all-punctuation and Unicode names: the result is nonempty and every
character is in `[A-Za-z0-9_-]`.  (Purity holds by construction: the
embedding is a function of the input string alone.)  The legacy V1 sanitizer
does not satisfy it. -/
theorem claim_C2 (name : String) :
    finalBaseName name ≠ "" ∧ ∀ c ∈ (finalBaseName name).data, isWordChar c :=
  finalBaseName_spec name

/-- **C3.**  After a successful request (subprocess reported no error, the
output file was produced and streaming was attempted), both the staged input
and the produced output have been unlinked and no per-request file remains
in either staging directory — for every download outcome `env.downloadErr`,
i.e. whether streaming succeeded or the client disconnected. -/
theorem claim_C3 (req : CompressRequest) (env : ExecEnv) (file : UploadedFile)
    (hfile : req.file = some file)
    (hsettings : (compressionSettingsLookup
      (compressionLevelOf req.compressionLevel)).isFalsy = false)
    (hok : env.error = none) (hout : env.outputCreated = true) :
    Effect.unlink file.path ∈ handleCompress req env ∧
    Effect.unlink ("compressed_pdfs/" ++ outputFileName req.now file.originalname) ∈
      handleCompress req env ∧
    finalFiles [file.path]
      (execCreatesOf env ("compressed_pdfs/" ++ outputFileName req.now file.originalname))
      (handleCompress req env) = [] := by
  simp only [handleCompress, hfile, hsettings, hok, Bool.false_eq_true, if_false]
  refine ⟨by simp, by simp, ?_⟩
  simp only [finalFiles, execCreatesOf, hout, if_true, List.foldl, stepFiles]
  by_cases h : ("compressed_pdfs/" ++ outputFileName req.now file.originalname) = file.path
  · simp [h]
  · simp [h, List.filter, Ne.symm h]

/-- **C4 (counterexample).**  In the V1 handler (`index.js`), when the
subprocess fails after having written a partial output file, the output file
is *not* unlinked and remains in the outbound staging directory, contrary to
the claim. -/
theorem claim_C4_counterexample :
    finalFiles ["uploads/1-doc.pdf"]
      (execCreatesOf ⟨some "boom", "", "gs blew up", true, none, false⟩
        "compressed_pdfs/compressed-5-doc.pdf")
      (handleCompressV1
        ⟨some ⟨"doc.pdf", "uploads/1-doc.pdf", "application/pdf"⟩, some "little", 5⟩
        ⟨some "boom", "", "gs blew up", true, none, false⟩) =
      ["compressed_pdfs/compressed-5-doc.pdf"] ∧
    Effect.unlink "compressed_pdfs/compressed-5-doc.pdf" ∉
      handleCompressV1
        ⟨some ⟨"doc.pdf", "uploads/1-doc.pdf", "application/pdf"⟩, some "little", 5⟩
        ⟨some "boom", "", "gs blew up", true, none, false⟩ := by
  decide

/-- **C4 (amended).**  In the deployed V2 handler (`app.js`), when the
subprocess fails the endpoint responds 500 with a JSON message carrying
`stderr || error.message` (so the captured stderr whenever it is nonempty),
the staged input is unlinked, and the output path is unlinked, leaving no
per-request file in either staging directory regardless of whether a partial
output file was written.  The legacy V1 handler does not remove the partial
output file. -/
theorem claim_C4 (req : CompressRequest) (env : ExecEnv) (file : UploadedFile)
    (msg : String) (hfile : req.file = some file)
    (hsettings : (compressionSettingsLookup
      (compressionLevelOf req.compressionLevel)).isFalsy = false)
    (herr : env.error = some msg) :
    Effect.respondJson 500 ("Error compressing PDF. Ghostscript stderr: " ++
      (if env.stderr = "" then msg else env.stderr)) ∈ handleCompress req env ∧
    (env.stderr ≠ "" →
      Effect.respondJson 500 ("Error compressing PDF. Ghostscript stderr: " ++
        env.stderr) ∈ handleCompress req env) ∧
    Effect.unlink file.path ∈ handleCompress req env ∧
    Effect.unlink ("compressed_pdfs/" ++ outputFileName req.now file.originalname) ∈
      handleCompress req env ∧
    finalFiles [file.path]
      (execCreatesOf env ("compressed_pdfs/" ++ outputFileName req.now file.originalname))
      (handleCompress req env) = [] := by
  simp only [handleCompress, hfile, hsettings, herr, Bool.false_eq_true, if_false]
  refine ⟨by simp, ?_, by simp, by simp, ?_⟩
  · intro hne
    simp [if_neg hne]
  · simp only [finalFiles, execCreatesOf, List.foldl, stepFiles]
    by_cases hco : env.outputCreated
    · by_cases h : ("compressed_pdfs/" ++ outputFileName req.now file.originalname) = file.path
      · simp [hco, h]
      · simp [hco, h, List.filter, Ne.symm h]
    · simp [hco, List.filter]

set_option maxRecDepth 10000 in
/-- **C5.**  Failing input for the claim: a valid file with
`compressionLevel = "toString"`.  The lookup `compressionSettings["toString"]`
finds the inherited `Object.prototype.toString` (truthy), so the 400
validation branch is skipped and the subprocess *is* invoked — with
`-dPDFSETTINGS=undefined` — and the response is the exec error path (500),
not 400.  The theorem evaluates the handler at this input. -/
theorem claim_C5 :
    handleCompress
      ⟨some ⟨"doc.pdf", "uploads/3-doc.pdf", "application/pdf"⟩, some "toString", 7⟩
      ⟨some "gs exited 1", "", "", false, none, false⟩ =
    [Effect.execCmd (gsCommand "undefined" "undefined"
        "compressed_pdfs/compressed-7-doc.pdf" "uploads/3-doc.pdf"),
     Effect.unlink "uploads/3-doc.pdf",
     Effect.unlink "compressed_pdfs/compressed-7-doc.pdf",
     Effect.respondJson 500
       "Error compressing PDF. Ghostscript stderr: gs exited 1"] := by
  decide

/-- **C6 (counterexample).**  The code never checks that the output path
exists: with an exec callback reporting no error but no output file created,
the handler still proceeds to the streaming branch (`res.download`), i.e.
the invocation is classified as a success. -/
theorem claim_C6_counterexample :
    Effect.download "compressed_pdfs/compressed-7-doc.pdf" "compressed-7-doc.pdf" ∈
      handleCompress
        ⟨some ⟨"doc.pdf", "uploads/3-doc.pdf", "application/pdf"⟩, some "middle", 7⟩
        ⟨none, "", "", false, none, false⟩ ∧
    execCreatesOf ⟨none, "", "", false, none, false⟩
      "compressed_pdfs/compressed-7-doc.pdf" = [] := by
  decide

/-- **C6 (amended).**  The handler classifies an invocation as successful
(and streams the output) exactly when `exec` reports no error — the
existence of the output path is *not* part of the success condition; the
classification is independent of whether the output file exists. -/
theorem claim_C6 (req : CompressRequest) (env : ExecEnv) (file : UploadedFile)
    (hfile : req.file = some file)
    (hsettings : (compressionSettingsLookup
      (compressionLevelOf req.compressionLevel)).isFalsy = false) :
    (∃ p f, Effect.download p f ∈ handleCompress req env) ↔ env.error = none := by
  simp only [handleCompress, hfile, hsettings, Bool.false_eq_true, if_false]
  cases herr : env.error with
  | none => simp
  | some msg => simp

/-- **C7.**  For every valid request whose file was staged by the V2 multer
configuration, the handler invokes exactly the fixed Ghostscript argument
list: `pdfwrite` device, compatibility 1.4, the selected profile's
`-dPDFSETTINGS` directive, `-dNOPAUSE -dQUIET -dBATCH`,
`-dDetectDuplicateImages=true`, the profile's single image resolution
repeated identically for the color, gray and mono arguments, and the two
quoted paths — which the shell recovers as single intact arguments because
neither path contains any whitespace character or shell metacharacter. -/
theorem claim_C7 (req : CompressRequest) (env : ExecEnv) (file : UploadedFile)
    (p : CompressionProfile) (nowIn : Nat)
    (hfile : req.file = some file)
    (hpath : file.path = stagedInputPath nowIn file.originalname)
    (hprof : compressionSettingsLookup (compressionLevelOf req.compressionLevel) =
      .profile p) :
    Effect.execCmd (gsCommand p.level p.imageResolution
      (outputPath req.now file.originalname) file.path) ∈ handleCompress req env ∧
    shellFields (gsCommand p.level p.imageResolution
      (outputPath req.now file.originalname) file.path) =
      ["gs".data, "-sDEVICE=pdfwrite".data, "-dCompatibilityLevel=1.4".data,
       "-dPDFSETTINGS=".data ++ p.level.data,
       "-dNOPAUSE".data, "-dQUIET".data, "-dBATCH".data,
       "-dDetectDuplicateImages=true".data,
       "-dColorImageResolution=".data ++ p.imageResolution.data,
       "-dGrayImageResolution=".data ++ p.imageResolution.data,
       "-dMonoImageResolution=".data ++ p.imageResolution.data,
       "-sOutputFile=".data ++ (outputPath req.now file.originalname).data,
       file.path.data] ∧
    (∀ c ∈ (outputPath req.now file.originalname).data, c ∉ shellMetaChars) ∧
    (∀ c ∈ file.path.data, c ∉ shellMetaChars) := by
  have hO : ∀ c ∈ (outputPath req.now file.originalname).data, isShellSafeChar c :=
    outputPath_safe req.now file.originalname
  have hI : ∀ c ∈ file.path.data, isShellSafeChar c := by
    rw [hpath]; exact stagedInputPath_safe nowIn file.originalname
  have hlr : (∀ c ∈ p.level.data, c ≠ '"' ∧ c ≠ ' ') ∧
      (∀ c ∈ p.imageResolution.data, c ≠ '"' ∧ c ≠ ' ') := by
    have : p = ⟨"/screen", "72"⟩ ∨ p = ⟨"/ebook", "150"⟩ ∨ p = ⟨"/printer", "300"⟩ := by
      unfold compressionSettingsLookup at hprof
      split_ifs at hprof <;> simp_all
    rcases this with rfl | rfl | rfl <;> exact ⟨by decide, by decide⟩
  refine ⟨?_, ?_, fun c hc => shellSafe_not_meta (hO c hc),
    fun c hc => shellSafe_not_meta (hI c hc)⟩
  · simp only [handleCompress, hfile, hprof, LookupResult.isFalsy,
      Bool.false_eq_true, if_false, LookupResult.levelStr,
      LookupResult.imageResolutionStr]
    cases env.error <;> simp [outputPath]
  · exact gsCommand_fields _ _ _ _ hlr.1 hlr.2
      (fun c hc => shellSafe_not_quote_space (hO c hc))
      (fun c hc => shellSafe_not_quote_space (hI c hc))

/-- **C8 (counterexample).**  Two distinct concurrent requests (different
uploaded names) that share the same `Date.now()` millisecond and sanitize to
the same base name receive the *same* output path: the naming scheme alone
does not guarantee distinctness. -/
theorem claim_C8_counterexample :
    (⟨some ⟨"doc.pdf", "uploads/1-doc.pdf", "application/pdf"⟩, some "middle", 1000⟩ :
      CompressRequest) ≠
      ⟨some ⟨"doc!.pdf", "uploads/1-doc_.pdf", "application/pdf"⟩, some "middle", 1000⟩ ∧
    outputPath 1000 "doc.pdf" = outputPath 1000 "doc!.pdf" := by
  decide

/-- **C8 (amended).**  The generated output paths of two requests are
distinct if and only if their `Date.now()` timestamps differ or their
sanitized base names differ; in particular any two requests with different
timestamps get distinct files, but equal millisecond timestamps plus equal
sanitized bases collide. -/
theorem claim_C8 (n₁ n₂ : Nat) (name₁ name₂ : String) :
    outputPath n₁ name₁ = outputPath n₂ name₂ ↔
    (n₁ = n₂ ∧ finalBaseName name₁ = finalBaseName name₂) :=
  outputPath_inj n₁ n₂ name₁ name₂

/-- **C9.**  A present-but-empty `compressionLevel` field is falsy in JS, so
the `||` default substitutes `"middle"`: the request is handled exactly like
one with no level field, is not rejected with 400, and proceeds to invoke
the subprocess with the `/ebook`/150 (middle) profile. -/
theorem claim_C9 (req : CompressRequest) (env : ExecEnv) (file : UploadedFile)
    (hfile : req.file = some file)
    (hlvl : req.compressionLevel = some "") :
    handleCompress req env =
      handleCompress { req with compressionLevel := none } env ∧
    Effect.execCmd (gsCommand "/ebook" "150"
      ("compressed_pdfs/" ++ outputFileName req.now file.originalname) file.path) ∈
      handleCompress req env ∧
    (∀ m, Effect.respondJson 400 m ∉ handleCompress req env) := by
  have hm : compressionLevelOf req.compressionLevel = "middle" := by
    rw [hlvl]; rfl
  refine ⟨?_, ?_, ?_⟩
  · simp [handleCompress, hlvl, compressionLevelOf]
  · simp only [handleCompress, hfile, hm]
    cases env.error <;> simp [compressionSettingsLookup, LookupResult.isFalsy,
      LookupResult.levelStr, LookupResult.imageResolutionStr]
  · intro m
    simp only [handleCompress, hfile, hm]
    cases env.error <;>
      simp [compressionSettingsLookup, LookupResult.isFalsy,
        LookupResult.levelStr, LookupResult.imageResolutionStr]

/-- **C10.**  No file-type validation exists: for every uploaded file —
whatever its name, extension or declared content type — a request whose
level lookup yields a profile performs exactly one subprocess invocation,
never responds 400, and responds 500 exactly when the subprocess reports an
error. -/
theorem claim_C10 (req : CompressRequest) (env : ExecEnv) (file : UploadedFile)
    (p : CompressionProfile)
    (hfile : req.file = some file)
    (hprof : compressionSettingsLookup (compressionLevelOf req.compressionLevel) =
      .profile p) :
    ((handleCompress req env).filter Effect.isExec).length = 1 ∧
    ((∃ m, Effect.respondJson 500 m ∈ handleCompress req env) ↔ env.error ≠ none) ∧
    (∀ m, Effect.respondJson 400 m ∉ handleCompress req env) := by
  simp only [handleCompress, hfile, hprof, LookupResult.isFalsy,
    Bool.false_eq_true, if_false]
  refine ⟨?_, ?_, ?_⟩
  · cases env.error <;> simp [Effect.isExec, List.filter]
  · cases env.error <;> simp
  · intro m
    cases env.error <;> simp


theorem claim_C3_witness :
    sampleRequest.file = some sampleFile ∧
    (compressionSettingsLookup
      (compressionLevelOf sampleRequest.compressionLevel)).isFalsy = false ∧
    sampleEnvOk.error = none ∧
    sampleEnvOk.outputCreated = true ∧
    (Effect.unlink sampleFile.path ∈ handleCompress sampleRequest sampleEnvOk ∧
     Effect.unlink ("compressed_pdfs/" ++
       outputFileName sampleRequest.now sampleFile.originalname) ∈
       handleCompress sampleRequest sampleEnvOk ∧
     finalFiles [sampleFile.path]
       (execCreatesOf sampleEnvOk ("compressed_pdfs/" ++
         outputFileName sampleRequest.now sampleFile.originalname))
       (handleCompress sampleRequest sampleEnvOk) = []) :=
  ⟨rfl, by decide, rfl, rfl,
   claim_C3 sampleRequest sampleEnvOk sampleFile rfl (by decide) rfl rfl⟩

theorem claim_C4_witness :
    sampleRequest.file = some sampleFile ∧
    (compressionSettingsLookup
      (compressionLevelOf sampleRequest.compressionLevel)).isFalsy = false ∧
    sampleEnvErr.error = some "exit 1" ∧
    (Effect.respondJson 500 ("Error compressing PDF. Ghostscript stderr: " ++
       (if sampleEnvErr.stderr = "" then "exit 1" else sampleEnvErr.stderr)) ∈
       handleCompress sampleRequest sampleEnvErr ∧
     (sampleEnvErr.stderr ≠ "" →
       Effect.respondJson 500 ("Error compressing PDF. Ghostscript stderr: " ++
         sampleEnvErr.stderr) ∈ handleCompress sampleRequest sampleEnvErr) ∧
     Effect.unlink sampleFile.path ∈ handleCompress sampleRequest sampleEnvErr ∧
     Effect.unlink ("compressed_pdfs/" ++
       outputFileName sampleRequest.now sampleFile.originalname) ∈
       handleCompress sampleRequest sampleEnvErr ∧
     finalFiles [sampleFile.path]
       (execCreatesOf sampleEnvErr ("compressed_pdfs/" ++
         outputFileName sampleRequest.now sampleFile.originalname))
       (handleCompress sampleRequest sampleEnvErr) = []) :=
  ⟨rfl, by decide, rfl,
   claim_C4 sampleRequest sampleEnvErr sampleFile "exit 1" rfl (by decide) rfl⟩

theorem claim_C6_witness :
    sampleRequest.file = some sampleFile ∧
    (compressionSettingsLookup
      (compressionLevelOf sampleRequest.compressionLevel)).isFalsy = false ∧
    ((∃ p f, Effect.download p f ∈ handleCompress sampleRequest sampleEnvOk) ↔
      sampleEnvOk.error = none) :=
  ⟨rfl, by decide, claim_C6 sampleRequest sampleEnvOk sampleFile rfl (by decide)⟩

theorem claim_C7_witness :
    sampleRequest.file = some sampleFile ∧
    sampleFile.path = stagedInputPath 1 sampleFile.originalname ∧
    compressionSettingsLookup (compressionLevelOf sampleRequest.compressionLevel) =
      .profile ⟨"/screen", "72"⟩ ∧
    (Effect.execCmd (gsCommand (⟨"/screen", "72"⟩ : CompressionProfile).level
        (⟨"/screen", "72"⟩ : CompressionProfile).imageResolution
        (outputPath sampleRequest.now sampleFile.originalname) sampleFile.path) ∈
        handleCompress sampleRequest sampleEnvOk ∧
     shellFields (gsCommand (⟨"/screen", "72"⟩ : CompressionProfile).level
        (⟨"/screen", "72"⟩ : CompressionProfile).imageResolution
        (outputPath sampleRequest.now sampleFile.originalname) sampleFile.path) =
        ["gs".data, "-sDEVICE=pdfwrite".data, "-dCompatibilityLevel=1.4".data,
         "-dPDFSETTINGS=".data ++ (⟨"/screen", "72"⟩ : CompressionProfile).level.data,
         "-dNOPAUSE".data, "-dQUIET".data, "-dBATCH".data,
         "-dDetectDuplicateImages=true".data,
         "-dColorImageResolution=".data ++
           (⟨"/screen", "72"⟩ : CompressionProfile).imageResolution.data,
         "-dGrayImageResolution=".data ++
           (⟨"/screen", "72"⟩ : CompressionProfile).imageResolution.data,
         "-dMonoImageResolution=".data ++
           (⟨"/screen", "72"⟩ : CompressionProfile).imageResolution.data,
         "-sOutputFile=".data ++ (outputPath sampleRequest.now sampleFile.originalname).data,
         sampleFile.path.data] ∧
     (∀ c ∈ (outputPath sampleRequest.now sampleFile.originalname).data,
        c ∉ shellMetaChars) ∧
     (∀ c ∈ sampleFile.path.data, c ∉ shellMetaChars)) :=
  ⟨rfl, by decide, by decide,
   claim_C7 sampleRequest sampleEnvOk sampleFile ⟨"/screen", "72"⟩ 1
     rfl (by decide) (by decide)⟩

theorem claim_C9_witness :
    sampleRequestEmptyLevel.file = some sampleFile ∧
    sampleRequestEmptyLevel.compressionLevel = some "" ∧
    (handleCompress sampleRequestEmptyLevel sampleEnvOk =
       handleCompress { sampleRequestEmptyLevel with compressionLevel := none }
         sampleEnvOk ∧
     Effect.execCmd (gsCommand "/ebook" "150"
       ("compressed_pdfs/" ++
         outputFileName sampleRequestEmptyLevel.now sampleFile.originalname)
       sampleFile.path) ∈ handleCompress sampleRequestEmptyLevel sampleEnvOk ∧
     (∀ m, Effect.respondJson 400 m ∉
       handleCompress sampleRequestEmptyLevel sampleEnvOk)) :=
  ⟨rfl, rfl,
   claim_C9 sampleRequestEmptyLevel sampleEnvOk sampleFile rfl rfl⟩

theorem claim_C10_witness :
    sampleOddRequest.file = some sampleOddFile ∧
    compressionSettingsLookup (compressionLevelOf sampleOddRequest.compressionLevel) =
      .profile ⟨"/ebook", "150"⟩ ∧
    (((handleCompress sampleOddRequest sampleEnvErr).filter Effect.isExec).length = 1 ∧
     ((∃ m, Effect.respondJson 500 m ∈ handleCompress sampleOddRequest sampleEnvErr) ↔
       sampleEnvErr.error ≠ none) ∧
     (∀ m, Effect.respondJson 400 m ∉ handleCompress sampleOddRequest sampleEnvErr)) :=
  ⟨rfl, by decide,
   claim_C10 sampleOddRequest sampleEnvErr sampleOddFile ⟨"/ebook", "150"⟩
     rfl (by decide)⟩

end PdfCompressor
